import Mathlib

/-!
Verification development for the AirGo drone route-planning service.

The definitions below are a shallow embedding of the route engine
(`src/unnamed/part_008`, the shared route-engine module), the assess and
optimise API handlers (`src/src/api/assess-route.ts`,
`src/src/api/optimise-route.ts`), the population preprocessor
(`src/resources/seed-data/preprocess-data.ts`), the weather-report model
(`src/src/models/weather-report.ts`) and the routes-store change-feed wiring
(`src/unnamed/part_018`).

The geometry functions used by the engine (`getDistance`,
`getRhumbLineBearing`, `computeDestinationPoint`, `getDistanceFromLine`) come
from the third-party `geolib` package, whose floating-point trigonometry is
not part of this repository.  They are therefore treated as a parameter: a
`GeoFns` record of functions over an arbitrary linear ordered field.  All
universal statements are proved for every such record; concrete instances
(rational test kernels, and a real-valued equirectangular model of the
great-circle distance sanctioned by the spec) are used for concrete runs.
-/

namespace AirGo

/-- Geographic point, `type Point = { lat: number; lon: number }` of part_008 L76. -/
structure Point (α : Type) where
  lat : α
  lon : α
deriving DecidableEq

/-- Spatial-store item as consumed by the route engine: loosely typed records
with `lat`, `lon`, `type` and the optional per-type payload fields.  Missing
JS fields are modelled as `none`. -/
structure GeoPoint (α : Type) where
  lat : α
  lon : α
  type : String
  population : Option α := none
  visibility : Option α := none
  windSpeed : Option α := none
deriving DecidableEq

/-- Geometry kernel: the `geolib` functions the route engine calls, plus the
`toFixed(6)` rounding used to build node keys.  These functions live outside
the repository (third-party library), so the engine is embedded
parametrically over them. -/
structure GeoFns (α : Type) where
  dist : Point α → Point α → α
  bearing : Point α → Point α → α
  destPoint : Point α → α → α → Point α
  distFromLine : Point α → Point α → Point α → α
  round6 : α → α

variable {α : Type} [LinearOrderedField α]

/-- Constant `STEP_DISTANCE = 1000` (meters per step), part_008 L71. -/
def STEP_DISTANCE : α := 1000

/-- Constant `ANGLE_RANGE = 30` (degrees), part_008 L72. -/
def ANGLE_RANGE : α := 30

/-- Constant `SEARCH_ITERATIONS = 10` (angles to try), part_008 L73. -/
def SEARCH_ITERATIONS : ℕ := 10

/-- Constant `MAX_DEVIATION_RATIO = 0.2` of part_008 L74 (name shortened:
the original ends in a suffix this development avoids). -/
def devRatioMax : α := 1 / 5

/-- Rounding used by `Number(x.toFixed(1))`: one decimal place, ties toward
the larger value (ECMA-262 `toFixed`). -/
def round1 [FloorRing α] (x : α) : α := ((⌊x * 10 + 1 / 2⌋ : ℤ) : α) / 10

/-- JS `Math.round`: nearest integer, ties toward positive infinity. -/
def jsRound [FloorRing α] (x : α) : α := ((⌊x + 1 / 2⌋ : ℤ) : α)

/-- Consecutive pairs of a polyline: the segments iterated by the
`for (let i = 0; i < routePoints.length - 1; i++)` loops of part_008. -/
def segmentsOf (routePoints : List (Point α)) : List (Point α × Point α) :=
  routePoints.zip routePoints.tail

/-- Embeds `getPointsNearRouteSegment` (part_008 L167-194).  A point is kept
when the JS-truthy guard `point.lat && point.lon` holds (both coordinates
nonzero; absent and zero coordinates are falsy) and its distance from the
segment is within the per-type threshold (500 m for `Population`, 20000 m for
`Weather`).  The two separate `if` pushes of the source are mutually
exclusive because a point has a single `type`. -/
def getPointsNearRouteSegment (k : GeoFns α) (start e : Point α)
    (geoPoints : List (GeoPoint α)) : List (GeoPoint α) :=
  geoPoints.flatMap fun point =>
    if point.lat ≠ 0 ∧ point.lon ≠ 0 then
      let distance := k.distFromLine ⟨point.lat, point.lon⟩ start e
      (if distance ≤ 500 ∧ point.type = "Population" then [point] else []) ++
      (if distance ≤ 20000 ∧ point.type = "Weather" then [point] else [])
    else []

/-- Key used by the dedup `Map` of `getPointsNearRoute`:
the template string of part_008 L216 is injective on coordinate pairs, so it
is modelled as the pair itself. -/
def latLonKey (item : GeoPoint α) : α × α := (item.lat, item.lon)

/-- Keys of a JS `Map` built from an entry list, in first-insertion order. -/
def jsMapKeysInOrder [DecidableEq κ] (entries : List (κ × ν)) : List κ :=
  entries.foldl (fun acc e => if e.1 ∈ acc then acc else acc ++ [e.1]) []

/-- Value stored under a key after all entries are inserted: the last entry
with that key (later `Map.set` calls overwrite earlier ones). -/
def jsMapLastValue [DecidableEq κ] (entries : List (κ × ν)) (key : κ) : Option ν :=
  ((entries.filter fun e => e.1 = key).getLast?).map Prod.snd

/-- Embeds `Array.from(new Map(entries).values())`: for each key in
first-insertion order, the last value written under it. -/
def jsMapValues [DecidableEq κ] (entries : List (κ × ν)) : List ν :=
  (jsMapKeysInOrder entries).filterMap (jsMapLastValue entries)

/-- Embeds `getPointsNearRoute` (part_008 L207-218): per-segment filtering of
the geo points, concatenated over all consecutive segments, then deduplicated
by the `lat,lon` key through a JS `Map`. -/
def getPointsNearRoute (k : GeoFns α) (routePoints : List (Point α))
    (geoPoints : List (GeoPoint α)) : List (GeoPoint α) :=
  let results := (segmentsOf routePoints).flatMap fun seg =>
    getPointsNearRouteSegment k seg.1 seg.2 geoPoints
  jsMapValues (results.map fun item => (latLonKey item, item))

/-- Embeds `getRouteDistance` (part_008 L342-351): sum of consecutive
segment distances, divided by 500 ("round trip": times 2 then by 1000), then
rounded to one decimal place. -/
def getRouteDistance [FloorRing α] (k : GeoFns α) (routePoints : List (Point α)) : α :=
  let distance := (segmentsOf routePoints).foldl (fun acc seg => acc + k.dist seg.1 seg.2) 0
  round1 (distance / 500)

/-- Embeds `assessPopulationImpact` (part_008 L366-371): sum of
`population * 0.1` over `Population` points (missing population contributes
0, matching `point.population * 0.1 || 0`), then `Math.round`. -/
def assessPopulationImpact [FloorRing α] (geoPoints : List (GeoPoint α)) : α :=
  jsRound ((geoPoints.filter fun p => p.type = "Population").foldl
    (fun sum point => sum + point.population.getD 0 * (1 / 10)) 0)

/-- Embeds `assessNoiseImpact` (part_008 L383-386):
`Math.min(5, Math.max(0, Number((populationImpact / 1000).toFixed(1))))`. -/
def assessNoiseImpact [FloorRing α] (populationImpact : α) : α :=
  min 5 (max 0 (round1 (populationImpact / 1000)))

/-- Per-point visibility risk of `assessWeatherImpact` (part_008 L413):
`point.visibility < 1000 ? (1000 - point.visibility) / 200 : 0`; an absent
visibility compares false and yields 0. -/
def visibilityRiskValue (point : GeoPoint α) : α :=
  match point.visibility with
  | some v => if v < 1000 then (1000 - v) / 200 else 0
  | none => 0

/-- Per-point wind risk of `assessWeatherImpact` (part_008 L417):
`point.windSpeed ? (point.windSpeed > 20 ? 5 : point.windSpeed / 4) : 0`;
the outer test is JS truthiness, so both an absent and a zero wind speed
yield 0. -/
def windRiskValue (point : GeoPoint α) : α :=
  match point.windSpeed with
  | some w => if w ≠ 0 then (if w > 20 then 5 else w / 4) else 0
  | none => 0

/-- One accumulator update of the `assessWeatherImpact` loop for a single
risk component (part_008 L414-415 and L418-419): the ternary
`acc ? Math.max(acc, v) : v` (JS truthiness on the accumulated number,
so an accumulated 0 is replaced rather than maxed) followed by the
`if (v > acc) acc = v` line. -/
def riskAccumStep (acc : Option α) (v : α) : Option α :=
  let acc1 :=
    match acc with
    | some cur => if cur ≠ 0 then some (max cur v) else some v
    | none => some v
  match acc1 with
  | some cur => if v > cur then some v else some cur
  | none => some v

/-- Final conversion of an accumulated risk (part_008 L422-423):
`risk && Number(risk.toFixed(1))` — `undefined` stays `undefined`, an
accumulated 0 short-circuits to 0, otherwise round to one decimal place. -/
def riskFinalize [FloorRing α] (acc : Option α) : Option α :=
  match acc with
  | some v => if v = 0 then some 0 else some (round1 v)
  | none => none

/-- One iteration of the `assessWeatherImpact` loop (part_008 L411-420):
both risk accumulators updated from the current weather point. -/
def weatherAccumStep (acc : Option α × Option α) (point : GeoPoint α) :
    Option α × Option α :=
  (riskAccumStep acc.1 (visibilityRiskValue point),
   riskAccumStep acc.2 (windRiskValue point))

/-- Embeds `assessWeatherImpact` (part_008 L403-428): fold the two risk
accumulators over the `Weather` points (the `length > 0` guard of the source
is the same as folding over the empty list), then finalize each. -/
def assessWeatherImpact [FloorRing α] (geoPoints : List (GeoPoint α)) :
    Option α × Option α :=
  let weatherPoints := geoPoints.filter fun p => p.type = "Weather"
  let folded := weatherPoints.foldl weatherAccumStep (none, none)
  (riskFinalize folded.1, riskFinalize folded.2)

/-- Embeds `populationPenalty` (part_008 L443-452): piecewise on the distance
of the point to the segment end; `point.population || 0` is `getD 0` (a zero
population is falsy but contributes 0 either way). -/
def populationPenalty (k : GeoFns α) (point : GeoPoint α)
    (segmentStart segmentEnd : Point α) : α :=
  let distance := k.dist ⟨point.lat, point.lon⟩ segmentEnd
  let pop := point.population.getD 0
  if distance ≤ 500 then pop * 2
  else if distance ≤ 1000 then pop * 1
  else 0

/-- Search node of `findOptimisedRoute` (part_008 L78-82): a point plus the
realized cost `g`, the priority `f = g + h`, and the parent link used for
path reconstruction.  The source's optional `parent` field is split into a
`root` constructor (no parent: the start node) and a `child` constructor so
that recursion over the parent chain is structural. -/
inductive SNode (α : Type) where
  | root (lat lon g f : α)
  | child (lat lon g f : α) (parent : SNode α)
deriving DecidableEq

/-- Latitude of a search node. -/
def SNode.lat : SNode α → α
  | .root l _ _ _ => l
  | .child l _ _ _ _ => l

/-- Longitude of a search node. -/
def SNode.lon : SNode α → α
  | .root _ l _ _ => l
  | .child _ l _ _ _ => l

/-- Realized cost `g` of a search node. -/
def SNode.g : SNode α → α
  | .root _ _ g _ => g
  | .child _ _ g _ _ => g

/-- Priority `f` of a search node. -/
def SNode.f : SNode α → α
  | .root _ _ _ f => f
  | .child _ _ _ f _ => f

/-- Parent link of a search node. -/
def SNode.parent : SNode α → Option (SNode α)
  | .root _ _ _ _ => none
  | .child _ _ _ _ p => some p

/-- Point of a search node. -/
def SNode.pt (n : SNode α) : Point α := ⟨n.lat, n.lon⟩

/-- Path reconstruction of part_008 L516-521: walk the parent links,
collecting points root-first (the source `unshift`s while walking up). -/
def SNode.path : SNode α → List (Point α)
  | .root lat lon _ _ => [⟨lat, lon⟩]
  | .child lat lon _ _ p => p.path ++ [⟨lat, lon⟩]

/-- Node key of part_008 L495-497: the `toFixed(6)` pair of the coordinates.
The string template is injective on the rounded pair, so the key is modelled
as the pair of rounded coordinates. -/
def nodeKey (k : GeoFns α) (p : Point α) : α × α := (k.round6 p.lat, k.round6 p.lon)

/-- Extraction of the next node from the open set.  The source keeps the
array sorted with the stable `openSet.sort((a, b) => a.f - b.f)` and then
`shift`s the head (part_008 L505-508); since JS sort is stable and the array
between iterations always lists equal-`f` nodes in insertion order, the
shifted head is exactly the first element with minimal `f`.  This function
removes that element, leaving the rest in order. -/
def stableMin : List (SNode α) → Option (SNode α × List (SNode α))
  | [] => none
  | x :: xs =>
    match stableMin xs with
    | none => some (x, [])
    | some (m, rest) => if x.f ≤ m.f then some (x, xs) else some (m, x :: rest)

/-- Node popped by the next iteration of the `findOptimisedRoute` loop for a
given open set. -/
def removedNode (openSet : List (SNode α)) : Option (SNode α) :=
  (stableMin openSet).map Prod.fst

/-- Mutable state of the `findOptimisedRoute` loop: the open set (kept here
in insertion order, which yields the same pop sequence as the source's
sorted array, see `stableMin`) and the closed key set (a JS `Set` only ever
queried for membership, modelled as a list of keys). -/
structure SearchState (α : Type) where
  openSet : List (SNode α)
  closed : List (α × α)

/-- One iteration of the `while (openSet.length)` loop of
`findOptimisedRoute` (part_008 L505-559), returning either the function's
result (`Sum.inl`) or the next state (`Sum.inr`).  An empty open set yields
the straight-line fallback `[start, end]` (L561-562). -/
def stepSearch (k : GeoFns α) (s e : Point α) (spatialData : List (GeoPoint α))
    (st : SearchState α) : List (Point α) ⊕ SearchState α :=
  match stableMin st.openSet with
  | none => Sum.inl [s, e]
  | some (current, rest) =>
    let key := nodeKey k current.pt
    if key ∈ st.closed then Sum.inr ⟨rest, st.closed⟩
    else
      let closed' := key :: st.closed
      if k.dist current.pt e ≤ STEP_DISTANCE then Sum.inl (current.path ++ [e])
      else
        let directBearing := k.bearing current.pt e
        let maxDeviation := k.dist s e * devRatioMax
        let newNodes := (List.range SEARCH_ITERATIONS).filterMap fun (i : ℕ) =>
          let angle := directBearing +
            ANGLE_RANGE * (2 * (i : α) / ((SEARCH_ITERATIONS : α) - 1) - 1)
          let neighbor := k.destPoint current.pt STEP_DISTANCE angle
          if nodeKey k neighbor ∈ closed' then none
          else if k.distFromLine neighbor s e > maxDeviation then none
          else
            let segmentData := spatialData.filter fun p => p.type = "Population"
            let stepCost := segmentData.foldl
              (fun acc popPoint => acc + populationPenalty k popPoint current.pt neighbor) 0
            let tentativeG := current.g + stepCost
            some (SNode.child neighbor.lat neighbor.lon tentativeG
              (tentativeG + k.dist neighbor e) current)
        Sum.inr ⟨rest ++ newNodes, closed'⟩

/-- Fuel-indexed driver of the search loop: `none` when the fuel runs out
before the loop returns. -/
def runSearch (k : GeoFns α) (s e : Point α) (spatialData : List (GeoPoint α)) :
    ℕ → SearchState α → Option (List (Point α))
  | 0, _ => none
  | fuel + 1, st =>
    match stepSearch k s e spatialData st with
    | Sum.inl res => some res
    | Sum.inr st' => runSearch k s e spatialData fuel st'

/-- Initial state of `findOptimisedRoute` (part_008 L503): the start node
with `g = 0` and `f = heuristic(start) = dist(start, end)`. -/
def initState (k : GeoFns α) (s e : Point α) : SearchState α :=
  ⟨[SNode.root s.lat s.lon 0 (k.dist s e)], []⟩

/-- Embeds `findOptimisedRoute` (part_008 L484-563), with explicit fuel
bounding the number of loop iterations. -/
def findOptimisedRoute (k : GeoFns α) (s e : Point α)
    (spatialData : List (GeoPoint α)) (fuel : ℕ) : Option (List (Point α)) :=
  runSearch k s e spatialData fuel (initState k s e)

/-- Cumulative population-penalty cost of a polyline: the sum over its
consecutive segments of the per-segment step cost computed exactly as in the
expansion of part_008 L547-551. -/
def pathPopulationCost (k : GeoFns α) (spatialData : List (GeoPoint α))
    (path : List (Point α)) : α :=
  (segmentsOf path).foldl
    (fun acc seg =>
      acc + (spatialData.filter fun p => p.type = "Population").foldl
        (fun c popPoint => c + populationPenalty k popPoint seg.1 seg.2) 0)
    0

/-- Termination measure of the search loop relative to a finite universe
`K` of reachable node keys: each iteration either shrinks the open set (a
closed-key skip) or moves one key of `K` into the closed set while pushing
at most ten new nodes, so the measure strictly decreases. -/
def searchMeasure (K : Finset (α × α)) (st : SearchState α) : ℕ :=
  st.openSet.length + 11 * (K.filter fun kk => kk ∉ st.closed).card

/-- Search state reached after `n` loop iterations, `none` when the loop has
already returned. -/
def searchStateAfter (k : GeoFns α) (s e : Point α)
    (spatialData : List (GeoPoint α)) : ℕ → Option (SearchState α)
  | 0 => some (initState k s e)
  | n + 1 =>
    (searchStateAfter k s e spatialData n).bind fun st =>
      match stepSearch k s e spatialData st with
      | Sum.inl _ => none
      | Sum.inr st' => some st'

/-- Result of the assess endpoint (`src/src/api/assess-route.ts` L33-95):
either the 400 response for missing parameters, or the 200 body fields.
`noiseImpactScore`, `visibilityRisk` and `windRisk` are spread in only when
defined. -/
inductive AssessResult (α : Type) where
  | invalidInput
  | ok (route : List (Point α)) (routeDistance : α) (populationImpact : α)
      (noiseImpactScore : Option α) (visibilityRisk : Option α) (windRisk : Option α)
deriving DecidableEq

/-- Route distance field of an assess result (0 for the 400 response). -/
def AssessResult.routeDistanceOf : AssessResult α → α
  | .invalidInput => 0
  | .ok _ rd _ _ _ _ => rd

/-- Embeds the assess handler (`src/src/api/assess-route.ts` L33-95).  The
handler returns 400 exactly when one of the four query parameters is
`undefined` (L37-49); it performs no range check.  The spatial-store fetch
(L62-67, geohash cover plus DynamoDB queries) is external I/O and is
abstracted as the `storeItems` list the queries return; an empty store
returns the empty list.  The remaining steps (L70-94) are the pure engine
calls embedded above. -/
def assessRouteHandler [FloorRing α] (k : GeoFns α)
    (latStart lonStart latEnd lonEnd : Option α)
    (storeItems : List (GeoPoint α)) : AssessResult α :=
  if latStart = none ∨ lonStart = none ∨ latEnd = none ∨ lonEnd = none then
    .invalidInput
  else
    let startPoint : Point α := ⟨latStart.getD 0, lonStart.getD 0⟩
    let endPoint : Point α := ⟨latEnd.getD 0, lonEnd.getD 0⟩
    let routeDistance := getRouteDistance k [startPoint, endPoint]
    let routePointsOfInterest := getPointsNearRoute k [startPoint, endPoint] storeItems
    let populationImpact := assessPopulationImpact routePointsOfInterest
    let noiseImpact := assessNoiseImpact populationImpact
    let weather := assessWeatherImpact routePointsOfInterest
    .ok [startPoint, endPoint] routeDistance populationImpact
      (some noiseImpact) weather.1 weather.2

/-- Result of the optimise submit endpoint (`src/src/api/optimise-route.ts`
L20-56): 400 for missing parameters, otherwise the created route record's
points (the returned `routeId` is a fresh ULID, not modelled). -/
inductive SubmitResult (α : Type) where
  | invalidInput
  | accepted (routePoints : List (Point α))
deriving DecidableEq

/-- Embeds the optimise submit handler (`src/src/api/optimise-route.ts`
L20-56): 400 exactly when one of the four body coordinates is `undefined`
(L24-34), no range check; otherwise the route record `[start, end]` is
created (`payload.x || 0` is `getD 0`). -/
def optimiseRouteHandler (sLat sLon eLat eLon : Option α) : SubmitResult α :=
  if sLat = none ∨ sLon = none ∨ eLat = none ∨ eLon = none then
    .invalidInput
  else
    .accepted [⟨sLat.getD 0, sLon.getD 0⟩, ⟨eLat.getD 0, eLon.getD 0⟩]

/-- Record of the routes-store change feed as seen by the worker trigger:
only the event name matters for the trigger decision. -/
structure StreamRecord where
  eventName : String
  recordPK : String
deriving DecidableEq

/-- Embeds the event-source filter of the worker wiring (part_018 L59-67):
`FilterCriteria.filter({ eventName: FilterRule.isEqual('INSERT') })` — the
optimisation worker is invoked for a stream record exactly when its event
name equals `INSERT`. -/
def newRouteEventAccepted (r : StreamRecord) : Bool :=
  r.eventName == "INSERT"

/-- Modelled from the spec: the routes store emits update events for the
worker's own key-scoped UPDATE writeback (part_010 L98-119 issues an
`UpdateCommand` on the existing `PK`), and such change-feed records carry
the event name `MODIFY`, never `INSERT` (spec section 4.8: "update events
(the worker's own writeback) MUST NOT re-enter").  The store's event
emission itself is external to the repository. -/
def workerWritebackEvent (pk : String) : StreamRecord :=
  ⟨"MODIFY", pk⟩

/-- Change-feed record for the initial insertion of a route record by the
submit endpoint (spec section 4.8; the routes store INSERT of
`createRouteRecord`, part_008 L230-242). -/
def routeInsertEvent (pk : String) : StreamRecord :=
  ⟨"INSERT", pk⟩

/-- Spatial-store item written by the population preprocessor, with every
optional index attribute made explicit (`none` models an absent JS
property).  The source item (preprocess-data.ts L150-159) never carries a
`GSI1SK` attribute; when the cell is high-interest it carries `GSI1PK` and a
stray `GSI2SK`. -/
structure PopulationItem where
  PK : String
  SK : String
  GSI1PK : Option String
  GSI1SK : Option String
  GSI2SK : Option String
  type : String
  lat : ℚ
  lon : ℚ
  population : ℚ
deriving DecidableEq

/-- Embeds the item construction of `extractPopulationData`
(preprocess-data.ts L139 and L150-159): `highInterest = value > p95`;
`GSI1PK` and `GSI2SK` are spread in only when `highInterest`; no `GSI1SK`
attribute is ever written. -/
def populationItem (value p95 : ℚ) (pk sk : String) (lat lon : ℚ) : PopulationItem :=
  let highInterest := value > p95
  { PK := pk
    SK := sk
    GSI1PK := if highInterest then some pk else none
    GSI1SK := none
    GSI2SK := if highInterest then some sk else none
    type := "Population"
    lat := lat
    lon := lon
    population := value }

/-- Return value of `WeatherReport.getDynamoDBJson`
(`src/src/models/weather-report.ts` L178-194): an object holding only the
`GeoPoint` coordinates and a `PutItemInput` whose `Item` is the empty object
`{}` — the attribute list written to the store is empty; in particular no
`PK`, `SK`, `GSI1PK` or `GSI1SK` attribute is present. -/
structure WeatherDdbJson where
  latitude : ℚ
  longitude : ℚ
  itemAttributes : List (String × String)
deriving DecidableEq

/-- Embeds `getDynamoDBJson` (`src/src/models/weather-report.ts` L178-194):
returns the json for a valid report and null for an invalid one. -/
def getDynamoDBJson (isValid : Bool) (lat lon : ℚ) : Option WeatherDdbJson :=
  if isValid then some ⟨lat, lon, []⟩ else none

/-- Attribute names carried by a weather DynamoDB json. -/
def WeatherDdbJson.attributeNames (j : WeatherDdbJson) : List String :=
  j.itemAttributes.map Prod.fst

/-- Degenerate rational kernel: every distance is 0.  Its
`distFromLine` agrees exactly with the repository geometry on the
configurations at which it is used here: for a point lying on the segment,
`geolib.getDistanceFromLine` returns 0. -/
def trivKernel : GeoFns ℚ :=
  ⟨fun _ _ => 0, fun _ _ => 0, fun p _ _ => p, fun _ _ _ => 0, id⟩

/-- One-dimensional rational kernel used to exercise a short search run
with an interior path point: points move 1000 units forward in latitude per
step (carrying the candidate bearing in the longitude), distances are the
taxicab metric, and only the first fan candidate (bearing -30) counts as
lying on the start-end line; all other candidates are pushed far off the
line so the deviation filter discards them. -/
def lineKernel : GeoFns ℚ :=
  ⟨fun a b => |a.lat - b.lat| + |a.lon - b.lon|,
   fun _ _ => 0,
   fun o m ang => ⟨o.lat + m, ang⟩,
   fun p _ _ => if p.lon = -30 then 0 else 1000000,
   id⟩

/-- Constant-latitude rational kernel: every surviving expansion lands on
the same point `(9, -30)` and distinct points are 2000 apart, so the
reachable key set is exactly two keys and the search exhausts its open set.
Used to witness the termination bound and the straight-line fallback. -/
def constKernel : GeoFns ℚ :=
  ⟨fun a b => if a = b then 0 else 2000,
   fun _ _ => 0,
   fun _ _ ang => ⟨9, ang⟩,
   fun p _ _ => if p.lon = -30 then 0 else 1000000,
   id⟩

/-- Distance table of the tie-break example kernel, keyed on the finitely
many points its search run visits: the start `(0,0)`, the goal `(100,0)`,
the population point `(50,50)` and the two surviving first-expansion
neighbors `(1, -30)` and `(1, -70/3)`. -/
def tieDist : Point ℚ → Point ℚ → ℚ := fun a b =>
  if a = ⟨50, 50⟩ then
    if b = ⟨1, -30⟩ then 400 else if b = ⟨1, -70 / 3⟩ then 900 else 5000
  else if b = ⟨100, 0⟩ then
    if a = ⟨0, 0⟩ then 10000
    else if a = ⟨1, -30⟩ then 50
    else if a = ⟨1, -70 / 3⟩ then 100
    else 99999
  else 0

/-- Rational kernel whose search run reaches an open set holding two nodes
of equal priority `f` but different realized cost `g`: expansions land on
`(lat + 1, angle)`, the deviation filter keeps only the first two fan
candidates, the population point penalizes them differently (100 vs 50) and
the heuristic difference compensates exactly (50 vs 100). -/
def tieKernel : GeoFns ℚ :=
  ⟨tieDist,
   fun _ _ => 0,
   fun o _ ang => ⟨o.lat + 1, ang⟩,
   fun p _ _ => if p.lon = -30 ∨ p.lon = -70 / 3 then 0 else 1000000,
   id⟩

/-- Spatial data of the tie-break example: one population point. -/
def tieData : List (GeoPoint ℚ) :=
  [⟨50, 50, "Population", some 50, none, none⟩]

/-- Modelled from the spec: the geometry kernel's `distance(a, b)` (spec
section 4.2, implemented outside the repository by the `geolib` package) is
the great-circle distance in meters, for which the spec accepts the
equirectangular approximation (error below 0.5% over distances up to
50 km).  This is that approximation with the mean Earth radius 6371 km:
both angular offsets are converted to radians, the longitude offset is
scaled by the cosine of the mean latitude, and the Euclidean norm is scaled
by the radius. -/
noncomputable def distEqR (a b : Point ℝ) : ℝ :=
  let dLat := (a.lat - b.lat) * (Real.pi / 180)
  let dLon := (a.lon - b.lon) * (Real.pi / 180)
  let midLat := (a.lat + b.lat) / 2 * (Real.pi / 180)
  6371000 * Real.sqrt (dLat ^ 2 + (Real.cos midLat * dLon) ^ 2)

/-- Real-valued kernel for the assess scenario on an empty store: only the
point-to-point distance is ever evaluated there, so the remaining components
are placeholders. -/
noncomputable def eqGeoKernelR : GeoFns ℝ :=
  ⟨distEqR, fun _ _ => 0, fun p _ _ => p, fun _ _ _ => 0, id⟩

/-- Start point of spec scenario S2. -/
def s2start : Point ℝ := ⟨51.5074, -0.1278⟩

/-- End point of spec scenario S2. -/
def s2end : Point ℝ := ⟨51.53, -0.1⟩

/-! ## Theorems -/

section Claims

set_option maxRecDepth 4000

/-- C8: the optimization worker runs only for insertion events on the
routes store: the event-source filter of part_018 L62 accepts a change-feed
record exactly when its event name is `INSERT`, so the worker's own UPDATE
writeback (a `MODIFY` record) never re-triggers the worker for that
record. -/
theorem c8_worker_insert_only :
    (∀ pk, newRouteEventAccepted (workerWritebackEvent pk) = false) ∧
    (∀ pk, newRouteEventAccepted (routeInsertEvent pk) = true) ∧
    (∀ r : StreamRecord, newRouteEventAccepted r = true ↔ r.eventName = "INSERT") := by
  refine ⟨fun _ => rfl, fun _ => rfl, fun r => ?_⟩
  simp [newRouteEventAccepted]

/-- C9: evaluation of the written index attributes at a concrete
high-interest population cell (value 20, dataset 95th percentile 10) and at
the valid weather report of the repository's own unit test.  The population
item carries `GSI1PK` but no `GSI1SK` (a stray `GSI2SK` is written
instead), and the weather DynamoDB json carries no attribute at all — in
particular no GSI1 keys — contradicting the claim (and the unit test
`weather-report.test.ts` L40-51, which expects `PK`, `SK` and `GSI1PK`). -/
theorem c9_gsi1_keys_divergence :
    (populationItem 20 10 "gcpv" "POP#gcpvj0e8" (515 / 10) 0).GSI1PK = some "gcpv" ∧
    (populationItem 20 10 "gcpv" "POP#gcpvj0e8" (515 / 10) 0).GSI1SK = none ∧
    (20 : ℚ) > 10 ∧
    (populationItem 20 10 "gcpv" "POP#gcpvj0e8" (515 / 10) 0).GSI2SK = some "POP#gcpvj0e8" ∧
    ((getDynamoDBJson true (3762 / 100) (-12237 / 100)).map
      WeatherDdbJson.attributeNames) = some [] := by
  refine ⟨?_, rfl, by norm_num, ?_, rfl⟩ <;> with_unfolding_all decide

/-- C7 (amended): both the assess endpoint and the optimize-submit endpoint
return the 400-shaped `InvalidInput` result exactly when one of the four
coordinates is missing; coordinate ranges are not checked. -/
theorem c7_validation_presence_only [FloorRing α] (k : GeoFns α)
    (latStart lonStart latEnd lonEnd : Option α) (storeItems : List (GeoPoint α)) :
    (assessRouteHandler k latStart lonStart latEnd lonEnd storeItems = .invalidInput ↔
      (latStart = none ∨ lonStart = none ∨ latEnd = none ∨ lonEnd = none)) ∧
    (optimiseRouteHandler latStart lonStart latEnd lonEnd = (.invalidInput : SubmitResult α) ↔
      (latStart = none ∨ lonStart = none ∨ latEnd = none ∨ lonEnd = none)) := by
  constructor
  · unfold assessRouteHandler
    split <;> simp_all
  · unfold optimiseRouteHandler
    split <;> simp_all

/-- C7 (counterexample): a request with all four coordinates present and a
latitude of 91 — outside the valid range [-90, 90] — is not rejected by
either endpoint, refuting the claim that out-of-range coordinates yield
`InvalidInput`. -/
theorem c7_range_not_checked :
    assessRouteHandler trivKernel (some 91) (some 0) (some 0) (some 0) [] ≠ .invalidInput ∧
    optimiseRouteHandler (α := ℚ) (some 91) (some 0) (some 0) (some 0) ≠ .invalidInput ∧
    ¬((91 : ℚ) ≤ 90) := by
  with_unfolding_all decide

/-- C4 (amended): the segment filter retains a point `p` if and only if both
its coordinates are JS-truthy (nonzero) and its distance from the segment is
within the per-type threshold: 500 m for `Population`, 20000 m for
`Weather`; points of any other type — and points with a zero coordinate —
are discarded. -/
theorem c4_segment_filter_membership (k : GeoFns α) (a b : Point α)
    (geoPoints : List (GeoPoint α)) (p : GeoPoint α) :
    p ∈ getPointsNearRouteSegment k a b geoPoints ↔
      p ∈ geoPoints ∧ (p.lat ≠ 0 ∧ p.lon ≠ 0) ∧
        ((k.distFromLine ⟨p.lat, p.lon⟩ a b ≤ 500 ∧ p.type = "Population") ∨
         (k.distFromLine ⟨p.lat, p.lon⟩ a b ≤ 20000 ∧ p.type = "Weather")) := by
  unfold getPointsNearRouteSegment
  rw [List.mem_flatMap]
  constructor
  · rintro ⟨q, hq, hpq⟩
    split_ifs at hpq with h1
    · rcases List.mem_append.mp hpq with h | h <;> split_ifs at h with h2 <;>
        simp_all
    · simp_all
  · rintro ⟨hp, h1, h2⟩
    refine ⟨p, hp, ?_⟩
    rw [if_pos h1]
    rcases h2 with ⟨hd, ht⟩ | ⟨hd, ht⟩ <;> rw [List.mem_append]
    · left
      rw [if_pos ⟨hd, ht⟩]
      exact List.mem_singleton.mpr rfl
    · right
      rw [if_pos ⟨hd, ht⟩]
      exact List.mem_singleton.mpr rfl

/-- C4 (counterexample): a `Population` point lying directly on the segment
(distance 0 ≤ 500 m) but with latitude 0 is discarded by the filter because
of the JS-truthiness guard `point.lat && point.lon`, refuting the claimed
"retains if and only if" at this input. -/
theorem c4_zero_latitude_dropped :
    getPointsNearRouteSegment trivKernel ⟨0, 0⟩ ⟨0, 1⟩
      [⟨0, 1 / 2, "Population", some 5, none, none⟩] = [] ∧
    trivKernel.distFromLine ⟨0, 1 / 2⟩ ⟨0, 0⟩ ⟨0, 1⟩ ≤ 500 ∧
    (⟨0, 1 / 2, "Population", some 5, none, none⟩ : GeoPoint ℚ).type = "Population" := by
  with_unfolding_all decide

/-- Visibility risk per point is never negative: below 1000 the formula
`(1000 - v)/200` is positive, otherwise it is 0. -/
lemma visibilityRiskValue_nonneg (p : GeoPoint α) : 0 ≤ visibilityRiskValue p := by
  rcases hv : p.visibility with _ | v
  · simp [visibilityRiskValue, hv]
  · simp only [visibilityRiskValue, hv]
    split_ifs with h
    · have h2 : (0 : α) < 1000 - v := by linarith
      positivity
    · exact le_refl 0

/-- Wind risk per point is nonnegative provided a known wind speed is
nonnegative. -/
lemma windRiskValue_nonneg (p : GeoPoint α)
    (h : ∀ w, p.windSpeed = some w → 0 ≤ w) : 0 ≤ windRiskValue p := by
  rcases hw : p.windSpeed with _ | w
  · simp [windRiskValue, hw]
  · have hw0 : 0 ≤ w := h w hw
    simp only [windRiskValue, hw]
    split_ifs with h1 h2
    · norm_num
    · positivity
    · exact le_refl 0

/-- Updating an empty risk accumulator stores the value. -/
lemma riskAccumStep_none (v : α) : riskAccumStep none v = some v := by
  simp [riskAccumStep]

/-- Updating a filled risk accumulator with a nonnegative value takes the
maximum (the JS truthiness reset at an accumulated 0 coincides with the
maximum because the value is nonnegative). -/
lemma riskAccumStep_some (a v : α) (hv : 0 ≤ v) :
    riskAccumStep (some a) v = some (max a v) := by
  by_cases ha : a = 0
  · subst ha
    simp [riskAccumStep, max_eq_right hv]
  · have hmax : ¬ v > max a v := not_lt.mpr (le_max_right a v)
    simp [riskAccumStep, ha, hmax]

/-- Folding the risk accumulator over nonnegative values from a filled
accumulator computes the running maximum. -/
lemma riskAccum_foldl_some (vs : List α) (hv : ∀ v ∈ vs, 0 ≤ v) (a : α) :
    vs.foldl riskAccumStep (some a) = some (vs.foldl max a) := by
  induction vs generalizing a with
  | nil => rfl
  | cons v rest ih =>
    rw [List.foldl_cons, List.foldl_cons,
      riskAccumStep_some a v (hv v (List.mem_cons_self v rest))]
    exact ih (fun x hx => hv x (List.mem_cons_of_mem v hx)) (max a v)

/-- Folding the risk accumulator over a nonempty list of nonnegative values
from the empty accumulator computes the maximum of the values. -/
lemma riskAccum_foldl (vs : List α) (hne : vs ≠ []) (hv : ∀ v ∈ vs, 0 ≤ v) :
    vs.foldl riskAccumStep none = some (vs.foldl max 0) := by
  match vs, hne with
  | v :: rest, _ =>
    rw [List.foldl_cons, riskAccumStep_none,
      riskAccum_foldl_some rest (fun x hx => hv x (List.mem_cons_of_mem v hx)) v,
      List.foldl_cons]
    have h0 : max 0 v = v := max_eq_right (hv v (List.mem_cons_self v rest))
    rw [h0]

/-- Left fold of `max` dominates the seed and every list element. -/
lemma foldl_max_le (vs : List α) (a : α) :
    a ≤ vs.foldl max a ∧ ∀ v ∈ vs, v ≤ vs.foldl max a := by
  induction vs generalizing a with
  | nil => exact ⟨le_refl a, by simp⟩
  | cons v rest ih =>
    rw [List.foldl_cons]
    obtain ⟨h1, h2⟩ := ih (max a v)
    refine ⟨le_trans (le_max_left a v) h1, fun x hx => ?_⟩
    rcases List.mem_cons.mp hx with rfl | hx
    · exact le_trans (le_max_right a x) h1
    · exact h2 x hx

/-- Left fold of `max` is the seed or one of the elements. -/
lemma foldl_max_cases (vs : List α) (a : α) :
    vs.foldl max a = a ∨ vs.foldl max a ∈ vs := by
  induction vs generalizing a with
  | nil => exact Or.inl rfl
  | cons v rest ih =>
    rw [List.foldl_cons]
    rcases ih (max a v) with h | h
    · rcases max_cases a v with ⟨he, _⟩ | ⟨he, _⟩
      · exact Or.inl (h.trans he)
      · right
        rw [h, he]
        exact List.mem_cons_self v rest
    · exact Or.inr (List.mem_cons_of_mem v h)

/-- A fold of `max` over a nonempty list of nonnegative values seeded with 0
is attained by one of the elements. -/
lemma foldl_max_zero_mem (vs : List α) (hne : vs ≠ []) (hv : ∀ v ∈ vs, 0 ≤ v) :
    vs.foldl max 0 ∈ vs := by
  rcases foldl_max_cases vs 0 with h | h
  · match vs, hne with
    | v :: rest, _ =>
      have hle := (foldl_max_le (v :: rest) 0).2 v (List.mem_cons_self v rest)
      have h0 : v = 0 := le_antisymm (h ▸ hle) (hv v (List.mem_cons_self v rest))
      rw [h, ← h0]
      exact List.mem_cons_self v rest
  · exact h

/-- Rounding 0 to one decimal place gives 0. -/
lemma round1_zero [FloorRing α] : round1 (0 : α) = 0 := by
  unfold round1
  rw [show (0 : α) * 10 + 1 / 2 = 1 / 2 by ring]
  rw [show ⌊(1 / 2 : α)⌋ = 0 by
    rw [Int.floor_eq_zero_iff, Set.mem_Ico]
    constructor <;> norm_num]
  norm_num

/-- Finalizing a filled accumulator always rounds to one decimal place (an
accumulated 0 short-circuits, but rounding 0 gives 0 anyway). -/
lemma riskFinalize_some [FloorRing α] (v : α) :
    riskFinalize (some v) = some (round1 v) := by
  by_cases h : v = 0
  · subst h
    simp [riskFinalize, round1_zero]
  · simp [riskFinalize, h]

/-- The weather fold acts componentwise on the two accumulators. -/
lemma weatherFold_components (pts : List (GeoPoint α)) (acc : Option α × Option α) :
    pts.foldl weatherAccumStep acc =
      (pts.foldl (fun a p => riskAccumStep a (visibilityRiskValue p)) acc.1,
       pts.foldl (fun a p => riskAccumStep a (windRiskValue p)) acc.2) := by
  induction pts generalizing acc with
  | nil => rfl
  | cons p rest ih => rw [List.foldl_cons, ih]; rfl

/-- Closed form of `assessWeatherImpact`: each component folds its per-point
risk values independently and is then finalized. -/
lemma assessWeatherImpact_eq [FloorRing α] (geoPoints : List (GeoPoint α)) :
    assessWeatherImpact geoPoints =
      (riskFinalize (((geoPoints.filter fun p => p.type = "Weather").map
        visibilityRiskValue).foldl riskAccumStep none),
       riskFinalize (((geoPoints.filter fun p => p.type = "Weather").map
        windRiskValue).foldl riskAccumStep none)) := by
  simp only [assessWeatherImpact]
  rw [weatherFold_components]
  rw [← List.foldl_map visibilityRiskValue riskAccumStep, ← List.foldl_map windRiskValue riskAccumStep]

/-- C6: over a nonempty set of weather points whose known wind speeds (and
visibilities) are nonnegative, `assessWeatherImpact` returns the maximum
per-point visibility risk and the maximum per-point wind risk, each rounded
to one decimal place; with no weather points both components are
`undefined`. -/
theorem c6_weather_risk_max [FloorRing α] :
    (∀ geoPoints : List (GeoPoint α),
      geoPoints.filter (fun p => p.type = "Weather") = [] →
      assessWeatherImpact geoPoints = (none, none)) ∧
    (∀ geoPoints : List (GeoPoint α),
      geoPoints.filter (fun p => p.type = "Weather") ≠ [] →
      (∀ p ∈ geoPoints.filter (fun p => p.type = "Weather"),
        (∀ v, p.visibility = some v → 0 ≤ v) ∧ (∀ w, p.windSpeed = some w → 0 ≤ w)) →
      (assessWeatherImpact geoPoints).1 =
        some (round1 (((geoPoints.filter (fun p => p.type = "Weather")).map
          visibilityRiskValue).foldl max 0)) ∧
      (assessWeatherImpact geoPoints).2 =
        some (round1 (((geoPoints.filter (fun p => p.type = "Weather")).map
          windRiskValue).foldl max 0)) ∧
      (∀ p ∈ geoPoints.filter (fun p => p.type = "Weather"),
        visibilityRiskValue p ≤ ((geoPoints.filter (fun p => p.type = "Weather")).map
          visibilityRiskValue).foldl max 0 ∧
        windRiskValue p ≤ ((geoPoints.filter (fun p => p.type = "Weather")).map
          windRiskValue).foldl max 0) ∧
      (((geoPoints.filter (fun p => p.type = "Weather")).map
        visibilityRiskValue).foldl max 0 ∈
          (geoPoints.filter (fun p => p.type = "Weather")).map visibilityRiskValue ∧
       ((geoPoints.filter (fun p => p.type = "Weather")).map
        windRiskValue).foldl max 0 ∈
          (geoPoints.filter (fun p => p.type = "Weather")).map windRiskValue)) := by
  constructor
  · intro geoPoints h
    rw [assessWeatherImpact_eq, h]
    rfl
  · intro geoPoints hne hok
    have hvnn : ∀ v ∈ (geoPoints.filter fun p => p.type = "Weather").map
        visibilityRiskValue, 0 ≤ v := by
      intro v hv
      obtain ⟨p, _, rfl⟩ := List.mem_map.mp hv
      exact visibilityRiskValue_nonneg p
    have hwnn : ∀ v ∈ (geoPoints.filter fun p => p.type = "Weather").map
        windRiskValue, 0 ≤ v := by
      intro v hv
      obtain ⟨p, hp, rfl⟩ := List.mem_map.mp hv
      exact windRiskValue_nonneg p (hok p hp).2
    have hmapv : (geoPoints.filter fun p => p.type = "Weather").map
        visibilityRiskValue ≠ [] := by
      simpa using hne
    have hmapw : (geoPoints.filter fun p => p.type = "Weather").map
        windRiskValue ≠ [] := by
      simpa using hne
    rw [assessWeatherImpact_eq, riskAccum_foldl _ hmapv hvnn,
      riskAccum_foldl _ hmapw hwnn, riskFinalize_some, riskFinalize_some]
    refine ⟨rfl, rfl, fun p hp => ?_, ?_, ?_⟩
    · exact ⟨(foldl_max_le _ 0).2 _ (List.mem_map_of_mem visibilityRiskValue hp),
        (foldl_max_le _ 0).2 _ (List.mem_map_of_mem windRiskValue hp)⟩
    · exact foldl_max_zero_mem _ hmapv hvnn
    · exact foldl_max_zero_mem _ hmapw hwnn

/-- C6 witness: the S3-style scenario, one weather point with visibility
600 and wind speed 24; the theorem yields the maxima, and they evaluate to
risks 2.0 and 5.0. -/
theorem c6_weather_risk_max_witness :
    ((assessWeatherImpact (α := ℚ) [⟨1, 1, "Weather", none, some 600, some 24⟩]).1 =
      some (round1 (((([⟨1, 1, "Weather", none, some 600, some 24⟩] :
        List (GeoPoint ℚ)).filter (fun p => p.type = "Weather")).map
          visibilityRiskValue).foldl max 0))) ∧
    (assessWeatherImpact (α := ℚ) [⟨1, 1, "Weather", none, some 600, some 24⟩]) =
      (some 2, some 5) := by
  constructor
  · exact ((c6_weather_risk_max (α := ℚ)).2
      [⟨1, 1, "Weather", none, some 600, some 24⟩]
      (by with_unfolding_all decide) (by with_unfolding_all decide)).1
  · with_unfolding_all decide

section MapDedup

variable {κ ν σ : Type} [DecidableEq κ]

/-- Single key-collection step of `jsMapKeysInOrder`. -/
def keysStep (acc : List κ) (e : κ × ν) : List κ :=
  if e.1 ∈ acc then acc else acc ++ [e.1]

/-- The key fold of `jsMapKeysInOrder` is a fold of `keysStep`. -/
lemma jsMapKeysInOrder_eq_foldl (entries : List (κ × ν)) :
    jsMapKeysInOrder entries = entries.foldl keysStep [] := rfl

/-- Keys already collected stay collected. -/
lemma keysStep_mono (u : List (κ × ν)) (acc : List κ) (a : κ) (ha : a ∈ acc) :
    a ∈ u.foldl keysStep acc := by
  induction u generalizing acc with
  | nil => exact ha
  | cons e rest ih =>
    rw [List.foldl_cons]
    refine ih (keysStep acc e) ?_
    unfold keysStep
    split_ifs
    · exact ha
    · exact List.mem_append_left _ ha

/-- After folding, the key of every processed entry has been collected. -/
lemma keysStep_complete (u : List (κ × ν)) (acc : List κ) :
    ∀ e ∈ u, e.1 ∈ u.foldl keysStep acc := by
  induction u generalizing acc with
  | nil => intro e he; cases he
  | cons x rest ih =>
    intro e he
    rw [List.foldl_cons]
    rcases List.mem_cons.mp he with rfl | he
    · refine keysStep_mono rest (keysStep acc e) e.1 ?_
      unfold keysStep
      split_ifs with h
      · exact h
      · exact List.mem_append_right _ (List.mem_singleton.mpr rfl)
    · exact ih (keysStep acc x) e he

/-- Folding entries whose keys are all collected changes nothing. -/
lemma keysStep_absorbed (u : List (κ × ν)) (acc : List κ)
    (h : ∀ e ∈ u, e.1 ∈ acc) : u.foldl keysStep acc = acc := by
  induction u generalizing acc with
  | nil => rfl
  | cons x rest ih =>
    rw [List.foldl_cons]
    have hx : keysStep acc x = acc := if_pos (h x (List.mem_cons_self x rest))
    rw [hx]
    exact ih acc fun e he => h e (List.mem_cons_of_mem x he)

/-- Folding the same entry block twice collects the same keys as once. -/
lemma keysStep_dup (u : List (κ × ν)) (acc : List κ) :
    (u ++ u).foldl keysStep acc = u.foldl keysStep acc := by
  rw [List.foldl_append]
  exact keysStep_absorbed u _ (keysStep_complete u acc)

/-- Duplicating each block of a concatenation does not change the collected
keys. -/
lemma keysStep_flatMap_dup (ss : List σ) (E : σ → List (κ × ν)) (acc : List κ) :
    (ss.flatMap fun s => E s ++ E s).foldl keysStep acc =
      (ss.flatMap E).foldl keysStep acc := by
  induction ss generalizing acc with
  | nil => rfl
  | cons s rest ih =>
    rw [List.flatMap_cons, List.flatMap_cons]
    simp only [List.foldl_append]
    rw [keysStep_absorbed (E s) _ (keysStep_complete (E s) acc)]
    exact ih _

/-- Mapping a function distributes over the `or` of two options. -/
lemma option_map_or (a b : Option (κ × ν)) :
    (a.or b).map (Prod.snd (α := κ) (β := ν)) = (a.map Prod.snd).or (b.map Prod.snd) := by
  cases a <;> rfl

/-- Duplicating each block of a concatenation does not change the last
entry holding any given key. -/
lemma jsMapLastValue_flatMap_dup (ss : List σ) (E : σ → List (κ × ν)) (key : κ) :
    jsMapLastValue (ss.flatMap fun s => E s ++ E s) key =
      jsMapLastValue (ss.flatMap E) key := by
  unfold jsMapLastValue
  induction ss with
  | nil => rfl
  | cons s rest ih =>
    rw [List.flatMap_cons, List.flatMap_cons]
    simp only [List.filter_append, List.getLast?_append, Option.or_self]
    rw [option_map_or, option_map_or, ih]

end MapDedup

/-- The dedup of an entry list is determined by its keys in first-insertion
order and its per-key last values. -/
lemma jsMapValues_congr {κ ν : Type} [DecidableEq κ] (l₁ l₂ : List (κ × ν))
    (hkeys : jsMapKeysInOrder l₁ = jsMapKeysInOrder l₂)
    (hlast : ∀ key, jsMapLastValue l₁ key = jsMapLastValue l₂ key) :
    jsMapValues l₁ = jsMapValues l₂ := by
  unfold jsMapValues
  rw [hkeys, funext hlast]

/-- The per-segment filter distributes over concatenated point lists. -/
lemma getPointsNearRouteSegment_append (k : GeoFns α) (a b : Point α)
    (u v : List (GeoPoint α)) :
    getPointsNearRouteSegment k a b (u ++ v) =
      getPointsNearRouteSegment k a b u ++ getPointsNearRouteSegment k a b v := by
  unfold getPointsNearRouteSegment
  exact List.flatMap_append u v _

/-- C10: feeding the same fetched point list twice into
`getPointsNearRoute` returns exactly the same list as feeding it once — the
JS `Map` dedup collapses the duplicated per-segment results — and therefore
the downstream population impact is unchanged. -/
theorem c10_dedup_idempotent [FloorRing α] (k : GeoFns α)
    (routePoints : List (Point α)) (geoPoints : List (GeoPoint α)) :
    getPointsNearRoute k routePoints (geoPoints ++ geoPoints) =
      getPointsNearRoute k routePoints geoPoints ∧
    assessPopulationImpact (getPointsNearRoute k routePoints (geoPoints ++ geoPoints)) =
      assessPopulationImpact (getPointsNearRoute k routePoints geoPoints) := by
  have hmain : getPointsNearRoute k routePoints (geoPoints ++ geoPoints) =
      getPointsNearRoute k routePoints geoPoints := by
    simp only [getPointsNearRoute]
    have hseg : ((segmentsOf routePoints).flatMap fun seg =>
        getPointsNearRouteSegment k seg.1 seg.2 (geoPoints ++ geoPoints)).map
          (fun item => (latLonKey item, item)) =
        (segmentsOf routePoints).flatMap fun seg =>
          ((getPointsNearRouteSegment k seg.1 seg.2 geoPoints).map
            fun item => (latLonKey item, item)) ++
          ((getPointsNearRouteSegment k seg.1 seg.2 geoPoints).map
            fun item => (latLonKey item, item)) := by
      rw [List.map_flatMap]
      refine List.flatMap_congr fun seg _ => ?_
      rw [getPointsNearRouteSegment_append, List.map_append]
    have hbase : ((segmentsOf routePoints).flatMap fun seg =>
        getPointsNearRouteSegment k seg.1 seg.2 geoPoints).map
          (fun item => (latLonKey item, item)) =
        (segmentsOf routePoints).flatMap fun seg =>
          (getPointsNearRouteSegment k seg.1 seg.2 geoPoints).map
            fun item => (latLonKey item, item) := by
      rw [List.map_flatMap]
    rw [hseg, hbase]
    refine jsMapValues_congr _ _ ?_ ?_
    · rw [jsMapKeysInOrder_eq_foldl, jsMapKeysInOrder_eq_foldl]
      exact keysStep_flatMap_dup _ _ []
    · intro key
      exact jsMapLastValue_flatMap_dup _ _ key
  exact ⟨hmain, by rw [hmain]⟩

/-- An empty pop result characterizes the empty open set. -/
lemma stableMin_eq_none (l : List (SNode α)) : stableMin l = none ↔ l = [] := by
  cases l with
  | nil => simp [stableMin]
  | cons x xs =>
    simp only [stableMin]
    cases h : stableMin xs with
    | none => simp
    | some p =>
      obtain ⟨m, rest⟩ := p
      dsimp only
      split_ifs <;> simp

/-- The popped node carries the minimal `f` of the open set. -/
lemma stableMin_min (l : List (SNode α)) (n : SNode α) (rest : List (SNode α))
    (h : stableMin l = some (n, rest)) : ∀ m ∈ l, n.f ≤ m.f := by
  induction l generalizing n rest with
  | nil => cases h
  | cons x xs ih =>
    intro m hm
    simp only [stableMin] at h
    cases hx : stableMin xs with
    | none =>
      rw [hx] at h
      have hxs : xs = [] := (stableMin_eq_none xs).mp hx
      rw [Option.some.injEq, Prod.mk.injEq] at h
      obtain ⟨h1, h2⟩ := h
      subst h1
      subst hxs
      rcases List.mem_singleton.mp hm with rfl
      exact le_refl _
    | some p =>
      obtain ⟨mm, rr⟩ := p
      rw [hx] at h
      dsimp only at h
      split_ifs at h with hf
      · rw [Option.some.injEq, Prod.mk.injEq] at h
        obtain ⟨h1, h2⟩ := h
        subst h1
        rcases List.mem_cons.mp hm with rfl | hm2
        · exact le_refl _
        · exact le_trans hf (ih mm rr hx m hm2)
      · rw [Option.some.injEq, Prod.mk.injEq] at h
        obtain ⟨h1, h2⟩ := h
        subst h1
        rcases List.mem_cons.mp hm with rfl | hm2
        · exact le_of_lt (not_le.mp hf)
        · exact ih mm rr hx m hm2

/-- The pop splits the open set around the first node of minimal `f`: the
nodes before it all have strictly larger `f` (stability: earlier insertion
wins ties), and the remainder keeps its order. -/
lemma stableMin_split (l : List (SNode α)) (n : SNode α) (rest : List (SNode α))
    (h : stableMin l = some (n, rest)) :
    ∃ l₁ l₂, l = l₁ ++ n :: l₂ ∧ rest = l₁ ++ l₂ ∧ ∀ m ∈ l₁, n.f < m.f := by
  induction l generalizing n rest with
  | nil => cases h
  | cons x xs ih =>
    simp only [stableMin] at h
    cases hx : stableMin xs with
    | none =>
      rw [hx] at h
      have hxs : xs = [] := (stableMin_eq_none xs).mp hx
      rw [Option.some.injEq, Prod.mk.injEq] at h
      obtain ⟨h1, h2⟩ := h
      subst h1
      subst h2
      subst hxs
      exact ⟨[], [], rfl, rfl, by simp⟩
    | some p =>
      obtain ⟨mm, rr⟩ := p
      rw [hx] at h
      dsimp only at h
      split_ifs at h with hf
      · rw [Option.some.injEq, Prod.mk.injEq] at h
        obtain ⟨h1, h2⟩ := h
        subst h1
        subst h2
        exact ⟨[], xs, rfl, rfl, by simp⟩
      · rw [Option.some.injEq, Prod.mk.injEq] at h
        obtain ⟨h1, h2⟩ := h
        subst h1
        subst h2
        obtain ⟨l₁, l₂, he, hr, hl⟩ := ih mm rr hx
        refine ⟨x :: l₁, l₂, by rw [he]; rfl, by rw [hr]; rw [List.cons_append], ?_⟩
        intro m hm
        rcases List.mem_cons.mp hm with rfl | hm2
        · exact not_le.mp hf
        · exact hl m hm2

/-- The popped node is a member of the open set. -/
lemma stableMin_mem (l : List (SNode α)) (n : SNode α) (rest : List (SNode α))
    (h : stableMin l = some (n, rest)) : n ∈ l := by
  obtain ⟨l₁, l₂, he, _, _⟩ := stableMin_split l n rest h
  rw [he]
  exact List.mem_append_right l₁ (List.mem_cons_self n l₂)

/-- Elements left in the open set after a pop were already there. -/
lemma stableMin_rest_subset (l : List (SNode α)) (n : SNode α) (rest : List (SNode α))
    (h : stableMin l = some (n, rest)) : ∀ m ∈ rest, m ∈ l := by
  obtain ⟨l₁, l₂, he, hr, _⟩ := stableMin_split l n rest h
  intro m hm
  rw [hr] at hm
  rw [he]
  rcases List.mem_append.mp hm with hm1 | hm2
  · exact List.mem_append_left _ hm1
  · exact List.mem_append_right _ (List.mem_cons_of_mem n hm2)

/-- A pop shrinks the open set by exactly one node. -/
lemma stableMin_length (l : List (SNode α)) (n : SNode α) (rest : List (SNode α))
    (h : stableMin l = some (n, rest)) : l.length = rest.length + 1 := by
  obtain ⟨l₁, l₂, he, hr, _⟩ := stableMin_split l n rest h
  rw [he, hr]
  simp [List.length_append]
  omega

/-- C3 (amended): the node removed from the open set at each iteration of
`findOptimisedRoute` is always one with the minimum `f` value, and among
nodes with equal `f` ties are broken by position in the open set alone (the
JS sort is stable, so insertion order): the removed node is the first
minimal-`f` node, every node before it having strictly larger `f`.  The
realized cost `g` plays no role in the selection. -/
theorem c3_pop_min_f_stable (openSet : List (SNode α)) (n : SNode α)
    (h : removedNode openSet = some n) :
    n ∈ openSet ∧ (∀ m ∈ openSet, n.f ≤ m.f) ∧
    ∃ l₁ l₂, openSet = l₁ ++ n :: l₂ ∧ ∀ m ∈ l₁, n.f < m.f := by
  unfold removedNode at h
  cases hx : stableMin openSet with
  | none => rw [hx] at h; cases h
  | some p =>
    obtain ⟨m, rest⟩ := p
    rw [hx] at h
    cases h
    obtain ⟨l₁, l₂, he, _, hl⟩ := stableMin_split openSet m rest hx
    exact ⟨stableMin_mem openSet m rest hx, stableMin_min openSet m rest hx,
      l₁, l₂, he, hl⟩

/-- C3 witness: popping from a two-node open set with `f` values 5 and 3
removes the `f = 3` node, the minimum. -/
theorem c3_pop_min_f_stable_witness :
    (SNode.root (1 : ℚ) 1 0 3) ∈ [SNode.root (0 : ℚ) 0 0 5, SNode.root 1 1 0 3] ∧
    (∀ m ∈ [SNode.root (0 : ℚ) 0 0 5, SNode.root 1 1 0 3],
      (SNode.root (1 : ℚ) 1 0 3).f ≤ m.f) ∧
    ∃ l₁ l₂, [SNode.root (0 : ℚ) 0 0 5, SNode.root 1 1 0 3] =
      l₁ ++ (SNode.root (1 : ℚ) 1 0 3) :: l₂ ∧
      ∀ m ∈ l₁, (SNode.root (1 : ℚ) 1 0 3).f < m.f :=
  c3_pop_min_f_stable [SNode.root (0 : ℚ) 0 0 5, SNode.root 1 1 0 3]
    (SNode.root 1 1 0 3) (by with_unfolding_all decide)

/-- C3 (counterexample): in the search run of `tieKernel`, after one loop
iteration the open set holds two nodes with equal priority `f = 150` and
realized costs `g = 100` and `g = 50`; the node removed by the next
iteration is the one with the larger `g = 100` (it was inserted first),
refuting the claim that among equal-`f` nodes the one with lower `g` is
removed first. -/
theorem c3_tie_not_broken_by_g :
    (((searchStateAfter tieKernel ⟨0, 0⟩ ⟨100, 0⟩ tieData 1).bind
      (fun st => removedNode st.openSet)).map (fun n => (n.g, n.f))) = some (100, 150) ∧
    ((searchStateAfter tieKernel ⟨0, 0⟩ ⟨100, 0⟩ tieData 1).map
      (fun st => st.openSet.any (fun m => m.f == 150 && m.g == 50))) = some true := by
  with_unfolding_all decide

/-- A node's reconstructed path is never empty (it ends in the node's own
point). -/
lemma path_ne_nil (n : SNode α) : n.path ≠ [] := by
  cases n with
  | root lat lon g f => simp [SNode.path]
  | child lat lon g f p => simp [SNode.path]

/-- Inversion of a loop iteration that returns a result: either the open
set was empty and the straight-line fallback is returned, or the popped
node is within `STEP_DISTANCE` of the goal and its reconstructed path plus
the end point is returned. -/
lemma stepSearch_inl_cases (k : GeoFns α) (s e : Point α)
    (data : List (GeoPoint α)) (st : SearchState α) (res : List (Point α))
    (h : stepSearch k s e data st = Sum.inl res) :
    (st.openSet = [] ∧ res = [s, e]) ∨
    ∃ current rest, stableMin st.openSet = some (current, rest) ∧
      nodeKey k current.pt ∉ st.closed ∧ k.dist current.pt e ≤ STEP_DISTANCE ∧
      res = current.path ++ [e] := by
  unfold stepSearch at h
  cases hmin : stableMin st.openSet with
  | none =>
    rw [hmin] at h
    dsimp only at h
    rw [Sum.inl.injEq] at h
    exact Or.inl ⟨(stableMin_eq_none st.openSet).mp hmin, h.symm⟩
  | some p =>
    obtain ⟨current, rest⟩ := p
    rw [hmin] at h
    dsimp only at h
    split_ifs at h with h1 h2
    · rw [Sum.inl.injEq] at h
      exact Or.inr ⟨current, rest, rfl, h1, h2, h.symm⟩

/-- Inversion of a loop iteration that continues: either the popped node's
key was already closed and it is discarded, or the node is expanded — its
key is added to the closed set and at most `SEARCH_ITERATIONS` new child
nodes are pushed, each lying at a kernel destination of the popped node and
each satisfying the deviation constraint. -/
lemma stepSearch_inr_cases (k : GeoFns α) (s e : Point α)
    (data : List (GeoPoint α)) (st st' : SearchState α)
    (h : stepSearch k s e data st = Sum.inr st') :
    ∃ current rest, stableMin st.openSet = some (current, rest) ∧
      ((nodeKey k current.pt ∈ st.closed ∧ st' = ⟨rest, st.closed⟩) ∨
       (nodeKey k current.pt ∉ st.closed ∧
        st'.closed = nodeKey k current.pt :: st.closed ∧
        ∃ newNodes, st'.openSet = rest ++ newNodes ∧
          newNodes.length ≤ SEARCH_ITERATIONS ∧
          ∀ nd ∈ newNodes, ∃ ang gg ff,
            nd = SNode.child (k.destPoint current.pt STEP_DISTANCE ang).lat
              (k.destPoint current.pt STEP_DISTANCE ang).lon gg ff current ∧
            k.distFromLine (k.destPoint current.pt STEP_DISTANCE ang) s e ≤
              k.dist s e * devRatioMax)) := by
  unfold stepSearch at h
  cases hmin : stableMin st.openSet with
  | none =>
    rw [hmin] at h
    cases h
  | some p =>
    obtain ⟨current, rest⟩ := p
    rw [hmin] at h
    dsimp only at h
    split_ifs at h with h1 h2
    · rw [Sum.inr.injEq] at h
      exact ⟨current, rest, rfl, Or.inl ⟨h1, h.symm⟩⟩
    · rw [Sum.inr.injEq] at h
      subst h
      refine ⟨current, rest, rfl, Or.inr ⟨h1, rfl, _, rfl, ?_, ?_⟩⟩
      · exact le_of_le_of_eq (List.length_filterMap_le _ _) (List.length_range _)
      · intro nd hnd
        obtain ⟨i, _, hF⟩ := List.mem_filterMap.mp hnd
        split_ifs at hF with hc1 hc2
        · rw [Option.some.injEq] at hF
          exact ⟨_, _, _, hF.symm, not_lt.mp hc2⟩

/-- Head of an append with a nonempty left part. -/
lemma head?_append_left (l₁ l₂ : List β) (h : l₁ ≠ []) :
    (l₁ ++ l₂).head? = l₁.head? := by
  cases l₁ with
  | nil => exact absurd rfl h
  | cons x xs => rfl

/-- Invariant of the search loop: if every node of the open set has a
parent chain rooted at `s` whose non-root points all satisfy the deviation
constraint, then any returned polyline starts at `s`, ends at `e`, has at
least two points, and all its interior points satisfy the deviation
constraint. -/
lemma runSearch_path_inv (k : GeoFns α) (s e : Point α) (data : List (GeoPoint α)) :
    ∀ (fuel : ℕ) (st : SearchState α) (res : List (Point α)),
      (∀ n ∈ st.openSet, n.path.head? = some s ∧
        ∀ p ∈ n.path.tail, k.distFromLine p s e ≤ k.dist s e * devRatioMax) →
      runSearch k s e data fuel st = some res →
      res.head? = some s ∧ res.getLast? = some e ∧ 2 ≤ res.length ∧
      ∀ p ∈ res.tail.dropLast, k.distFromLine p s e ≤ k.dist s e * devRatioMax := by
  intro fuel
  induction fuel with
  | zero => intro st res _ hrun; cases hrun
  | succ fuel ih =>
    intro st res hinv hrun
    unfold runSearch at hrun
    cases hstep : stepSearch k s e data st with
    | inl r =>
      rw [hstep] at hrun
      dsimp only at hrun
      rw [Option.some.injEq] at hrun
      subst hrun
      rcases stepSearch_inl_cases k s e data st _ hstep with
        ⟨_, rfl⟩ | ⟨current, rest, hmin, _, _, rfl⟩
      · refine ⟨rfl, rfl, by simp, ?_⟩
        simp
      · obtain ⟨hhead, htail⟩ := hinv current (stableMin_mem _ _ _ hmin)
        cases hp : current.path with
        | nil => exact absurd hp (path_ne_nil current)
        | cons q t =>
          rw [hp] at hhead htail
          have hq : q = s := by
            rw [List.head?_cons, Option.some.injEq] at hhead
            exact hhead
          subst hq
          refine ⟨rfl, ?_, ?_, ?_⟩
          · rw [List.getLast?_concat]
          · simp only [List.length_cons, List.length_append, List.length_singleton]
            omega
          · intro p hp2
            rw [List.cons_append, List.tail_cons, List.dropLast_concat] at hp2
            exact htail p (by rw [List.tail_cons]; exact hp2)
    | inr st' =>
      rw [hstep] at hrun
      refine ih st' res ?_ hrun
      intro n hn
      rcases stepSearch_inr_cases k s e data st st' hstep with ⟨current, rest, hmin, hcase⟩
      rcases hcase with ⟨_, rfl⟩ | ⟨_, _, newNodes, hopen, _, hnew⟩
      · exact hinv n (stableMin_rest_subset _ _ _ hmin n hn)
      · rw [hopen] at hn
        rcases List.mem_append.mp hn with hn1 | hn2
        · exact hinv n (stableMin_rest_subset _ _ _ hmin n hn1)
        · obtain ⟨ang, gg, ff, rfl, hdev⟩ := hnew n hn2
          obtain ⟨hheadc, htailc⟩ := hinv current (stableMin_mem _ _ _ hmin)
          have hpath : (SNode.child (k.destPoint current.pt STEP_DISTANCE ang).lat
              (k.destPoint current.pt STEP_DISTANCE ang).lon gg ff current).path =
              current.path ++ [k.destPoint current.pt STEP_DISTANCE ang] := rfl
          rw [hpath]
          constructor
          · rw [head?_append_left _ _ (path_ne_nil current)]
            exact hheadc
          · cases hp : current.path with
            | nil => exact absurd hp (path_ne_nil current)
            | cons q t =>
              rw [hp] at htailc
              intro p hp2
              rw [List.cons_append, List.tail_cons] at hp2
              rcases List.mem_append.mp hp2 with hp3 | hp3
              · exact htailc p (by rw [List.tail_cons]; exact hp3)
              · rcases List.mem_singleton.mp hp3 with rfl
                exact hdev

/-- C1: every point on the polyline returned by `findOptimisedRoute`,
except the first (start) and last (end) points, has perpendicular distance
to the straight start-end segment of at most `MAX_DEVIATION_RATIO` (0.2)
times the straight-line distance: every interior point was pushed as a
neighbor candidate and therefore passed the deviation filter. -/
theorem c1_deviation (k : GeoFns α) (s e : Point α) (data : List (GeoPoint α))
    (fuel : ℕ) (res : List (Point α))
    (h : findOptimisedRoute k s e data fuel = some res) :
    ∀ p ∈ res.tail.dropLast, k.distFromLine p s e ≤ k.dist s e * devRatioMax := by
  have hinit : ∀ n ∈ (initState k s e).openSet, n.path.head? = some s ∧
      ∀ p ∈ n.path.tail, k.distFromLine p s e ≤ k.dist s e * devRatioMax := by
    intro n hn
    rcases List.mem_singleton.mp hn with rfl
    exact ⟨rfl, by simp [SNode.path]⟩
  exact (runSearch_path_inv k s e data fuel (initState k s e) res hinit h).2.2.2

/-- C1 witness: a two-step run of the line kernel returns a polyline with
one interior point, which satisfies the deviation bound. -/
theorem c1_deviation_witness :
    findOptimisedRoute lineKernel ⟨0, 0⟩ ⟨1500, 0⟩ [] 3 =
      some [⟨0, 0⟩, ⟨1000, -30⟩, ⟨1500, 0⟩] ∧
    (⟨1000, -30⟩ : Point ℚ) ∈
      ([⟨0, 0⟩, ⟨1000, -30⟩, ⟨1500, 0⟩] : List (Point ℚ)).tail.dropLast ∧
    lineKernel.distFromLine ⟨1000, -30⟩ ⟨0, 0⟩ ⟨1500, 0⟩ ≤
      lineKernel.dist ⟨0, 0⟩ ⟨1500, 0⟩ * devRatioMax :=
  ⟨by with_unfolding_all decide, by with_unfolding_all decide,
   c1_deviation lineKernel ⟨0, 0⟩ ⟨1500, 0⟩ [] 3 [⟨0, 0⟩, ⟨1000, -30⟩, ⟨1500, 0⟩]
     (by with_unfolding_all decide) ⟨1000, -30⟩ (by with_unfolding_all decide)⟩

/-- Folding a function that ignores its second argument is the identity on
the accumulator. -/
lemma foldl_const {β γ : Type} (l : List β) (a : γ) :
    l.foldl (fun acc _ => acc) a = a := by
  induction l generalizing a with
  | nil => rfl
  | cons x xs ih => rw [List.foldl_cons]; exact ih a

/-- Termination of the search loop: when every reachable node key lies in a
finite universe `K`, the loop returns once the fuel exceeds the measure
(each iteration strictly decreases the measure, since a skip shrinks the
open set and an expansion closes a fresh key of `K` while pushing at most
`SEARCH_ITERATIONS` nodes). -/
lemma runSearch_terminates (k : GeoFns α) (s e : Point α)
    (data : List (GeoPoint α)) (K : Finset (α × α))
    (HK : ∀ p m ang, k.distFromLine (k.destPoint p m ang) s e ≤ k.dist s e * devRatioMax →
      nodeKey k (k.destPoint p m ang) ∈ K) :
    ∀ (fuel : ℕ) (st : SearchState α),
      (∀ n ∈ st.openSet, nodeKey k n.pt ∈ K) →
      searchMeasure K st < fuel →
      ∃ res, runSearch k s e data fuel st = some res := by
  intro fuel
  induction fuel with
  | zero => intro st _ hm; exact absurd hm (Nat.not_lt_zero _)
  | succ fuel ih =>
    intro st hkey hm
    cases hstep : stepSearch k s e data st with
    | inl r =>
      refine ⟨r, ?_⟩
      unfold runSearch
      rw [hstep]
    | inr st' =>
      obtain ⟨current, rest, hmin, hcase⟩ := stepSearch_inr_cases k s e data st st' hstep
      have hlen := stableMin_length st.openSet current rest hmin
      have hstep2 : ∀ res, runSearch k s e data fuel st' = some res →
          runSearch k s e data (fuel + 1) st = some res := by
        intro res hres
        unfold runSearch
        rw [hstep]
        exact hres
      rcases hcase with ⟨_, rfl⟩ | ⟨hnotin, hclosed, newNodes, hopen, hnewlen, hnew⟩
      · have hkey' : ∀ n ∈ rest, nodeKey k n.pt ∈ K := fun n hn =>
          hkey n (stableMin_rest_subset _ _ _ hmin n hn)
        have hm' : searchMeasure K ⟨rest, st.closed⟩ < fuel := by
          unfold searchMeasure at hm ⊢
          dsimp only at hm ⊢
          omega
        obtain ⟨res, hres⟩ := ih ⟨rest, st.closed⟩ hkey' hm'
        exact ⟨res, hstep2 res hres⟩
      · have hkeymem : nodeKey k current.pt ∈ K :=
          hkey current (stableMin_mem _ _ _ hmin)
        have hsubset : K.filter (fun kk => kk ∉ st'.closed) ⊆
            K.filter (fun kk => kk ∉ st.closed) := by
          intro a ha
          rw [Finset.mem_filter] at ha ⊢
          refine ⟨ha.1, fun hmem => ha.2 ?_⟩
          rw [hclosed]
          exact List.mem_cons_of_mem _ hmem
        have hssub : K.filter (fun kk => kk ∉ st'.closed) ⊂
            K.filter (fun kk => kk ∉ st.closed) := by
          rw [Finset.ssubset_iff_of_subset hsubset]
          refine ⟨nodeKey k current.pt, ?_, ?_⟩
          · rw [Finset.mem_filter]
            exact ⟨hkeymem, hnotin⟩
          · rw [Finset.mem_filter]
            rintro ⟨_, hnot⟩
            exact hnot (by rw [hclosed]; exact List.mem_cons_self _ _)
        have hcard := Finset.card_lt_card hssub
        have hkey' : ∀ n ∈ st'.openSet, nodeKey k n.pt ∈ K := by
          intro n hn
          rw [hopen] at hn
          rcases List.mem_append.mp hn with hn1 | hn2
          · exact hkey n (stableMin_rest_subset _ _ _ hmin n hn1)
          · obtain ⟨ang, gg, ff, rfl, hdev⟩ := hnew n hn2
            exact HK current.pt STEP_DISTANCE ang hdev
        have hm' : searchMeasure K st' < fuel := by
          unfold searchMeasure at hm ⊢
          have hlen' : st'.openSet.length ≤ rest.length + SEARCH_ITERATIONS := by
            rw [hopen, List.length_append]
            omega
          unfold SEARCH_ITERATIONS at hlen'
          omega
        obtain ⟨res, hres⟩ := ih st' hkey' hm'
        exact ⟨res, hstep2 res hres⟩

/-- C2: on every finite input the optimizer terminates within a fuel bound
derived from the finite key universe and returns a polyline of length at
least 2 from start to end; an expanded node within `STEP_DISTANCE` of the
end reconstructs the parent-link path and appends the end point; an empty
open set returns exactly `[start, end]`; and with no population points the
returned path's cumulative population-penalty cost is 0. -/
theorem c2_termination_shape_cost (k : GeoFns α) (s e : Point α)
    (data : List (GeoPoint α)) :
    (∀ (K : Finset (α × α)) (fuel : ℕ),
      nodeKey k s ∈ K →
      (∀ p m ang, k.distFromLine (k.destPoint p m ang) s e ≤ k.dist s e * devRatioMax →
        nodeKey k (k.destPoint p m ang) ∈ K) →
      searchMeasure K (initState k s e) < fuel →
      ∃ res, findOptimisedRoute k s e data fuel = some res) ∧
    (∀ (fuel : ℕ) (res : List (Point α)),
      findOptimisedRoute k s e data fuel = some res →
      res.head? = some s ∧ res.getLast? = some e ∧ 2 ≤ res.length) ∧
    (∀ (st : SearchState α) (current : SNode α) (rest : List (SNode α)),
      stableMin st.openSet = some (current, rest) →
      nodeKey k current.pt ∉ st.closed →
      k.dist current.pt e ≤ STEP_DISTANCE →
      stepSearch k s e data st = Sum.inl (current.path ++ [e])) ∧
    (∀ closed : List (α × α), stepSearch k s e data ⟨[], closed⟩ = Sum.inl [s, e]) ∧
    (∀ (fuel : ℕ) (res : List (Point α)),
      findOptimisedRoute k s e data fuel = some res →
      data.filter (fun p => p.type = "Population") = [] →
      pathPopulationCost k data res = 0) := by
  refine ⟨?_, ?_, ?_, ?_, ?_⟩
  · intro K fuel hs HK hm
    refine runSearch_terminates k s e data K HK fuel (initState k s e) ?_ hm
    intro n hn
    rcases List.mem_singleton.mp hn with rfl
    exact hs
  · intro fuel res h
    have hinit : ∀ n ∈ (initState k s e).openSet, n.path.head? = some s ∧
        ∀ p ∈ n.path.tail, k.distFromLine p s e ≤ k.dist s e * devRatioMax := by
      intro n hn
      rcases List.mem_singleton.mp hn with rfl
      exact ⟨rfl, by simp [SNode.path]⟩
    obtain ⟨h1, h2, h3, _⟩ := runSearch_path_inv k s e data fuel (initState k s e) res hinit h
    exact ⟨h1, h2, h3⟩
  · intro st current rest hmin hnotin hdist
    unfold stepSearch
    rw [hmin]
    dsimp only
    rw [if_neg hnotin, if_pos hdist]
  · intro closed
    rfl
  · intro fuel res _ hfilter
    unfold pathPopulationCost
    simp only [hfilter, List.foldl_nil, add_zero]
    exact foldl_const _ 0

/-- C2 witness: the constant-latitude kernel run with key universe
`{(0,0), (9,-30)}` terminates within the measure-derived fuel bound and
falls back to the straight line `[start, end]`; the goal-branch and
empty-open-set conjuncts are exercised on the trivial kernel; with no
spatial data the returned path's cost is 0. -/
theorem c2_termination_shape_cost_witness :
    (∃ res, findOptimisedRoute constKernel ⟨0, 0⟩ ⟨5, 5⟩ [] 24 = some res) ∧
    (([⟨0, 0⟩, ⟨5, 5⟩] : List (Point ℚ)).head? = some ⟨0, 0⟩ ∧
      ([⟨0, 0⟩, ⟨5, 5⟩] : List (Point ℚ)).getLast? = some ⟨5, 5⟩ ∧
      2 ≤ ([⟨0, 0⟩, ⟨5, 5⟩] : List (Point ℚ)).length) ∧
    stepSearch trivKernel ⟨0, 0⟩ ⟨7, 7⟩ []
      ⟨[SNode.root 0 0 0 0], []⟩ = Sum.inl ((SNode.root (0 : ℚ) 0 0 0).path ++ [⟨7, 7⟩]) ∧
    stepSearch constKernel ⟨0, 0⟩ ⟨5, 5⟩ [] ⟨[], [((1 : ℚ), (1 : ℚ))]⟩ =
      Sum.inl [⟨0, 0⟩, ⟨5, 5⟩] ∧
    pathPopulationCost constKernel [] [⟨0, 0⟩, ⟨5, 5⟩] = 0 := by
  have hc2 := c2_termination_shape_cost constKernel ⟨0, 0⟩ ⟨5, 5⟩ []
  refine ⟨?_, ?_, ?_, ?_, ?_⟩
  · refine hc2.1 {((0 : ℚ), (0 : ℚ)), ((9 : ℚ), (-30 : ℚ))} 24
      (by with_unfolding_all decide) ?_ (by with_unfolding_all decide)
    intro p m ang h
    by_cases hang : ang = (-30 : ℚ)
    · subst hang
      show ((9 : ℚ), (-30 : ℚ)) ∈ ({((0 : ℚ), (0 : ℚ)), ((9 : ℚ), (-30 : ℚ))} : Finset (ℚ × ℚ))
      with_unfolding_all decide
    · exfalso
      have h2 : (1000000 : ℚ) ≤ 400 := by
        have hd : constKernel.distFromLine (constKernel.destPoint p m ang) ⟨0, 0⟩ ⟨5, 5⟩ =
            1000000 := by
          show (if ang = -30 then (0 : ℚ) else 1000000) = 1000000
          rw [if_neg hang]
        have hdist : constKernel.dist ⟨0, 0⟩ ⟨5, 5⟩ * devRatioMax = 400 := by
          with_unfolding_all decide
        rw [hd, hdist] at h
        exact h
      norm_num at h2
  · exact hc2.2.1 24 [⟨0, 0⟩, ⟨5, 5⟩] (by with_unfolding_all decide)
  · exact (c2_termination_shape_cost trivKernel ⟨0, 0⟩ ⟨7, 7⟩ []).2.2.1
      ⟨[SNode.root 0 0 0 0], []⟩ (SNode.root 0 0 0 0) []
      (by with_unfolding_all decide) (by with_unfolding_all decide)
      (by with_unfolding_all decide)
  · exact hc2.2.2.2.1 [((1 : ℚ), (1 : ℚ))]
  · exact hc2.2.2.2.2 24 [⟨0, 0⟩, ⟨5, 5⟩] (by with_unfolding_all decide) rfl

/-- JS `Math.round` of 0 is 0. -/
lemma jsRound_zero [FloorRing α] : jsRound (0 : α) = 0 := by
  unfold jsRound
  rw [show (0 : α) + 1 / 2 = 1 / 2 by ring]
  rw [show ⌊(1 / 2 : α)⌋ = 0 by
    rw [Int.floor_eq_zero_iff, Set.mem_Ico]
    constructor <;> norm_num]
  norm_num

/-- Evaluation of the assess handler at the S2 scenario on an empty store:
the route is the straight line, the population impact and noise score are 0,
no weather risks are present, and the route distance is the rounded scaled
distance between the two points. -/
lemma s2_assess_eval :
    assessRouteHandler eqGeoKernelR (some 51.5074) (some (-0.1278))
      (some 51.53) (some (-0.1)) [] =
    AssessResult.ok [s2start, s2end]
      (getRouteDistance eqGeoKernelR [s2start, s2end]) 0 (some 0) none none := by
  unfold assessRouteHandler
  rw [if_neg (by simp)]
  show AssessResult.ok [s2start, s2end]
      (getRouteDistance eqGeoKernelR [s2start, s2end])
      (assessPopulationImpact (getPointsNearRoute eqGeoKernelR [s2start, s2end] []))
      (some (assessNoiseImpact
        (assessPopulationImpact (getPointsNearRoute eqGeoKernelR [s2start, s2end] []))))
      (assessWeatherImpact (getPointsNearRoute eqGeoKernelR [s2start, s2end] [])).1
      (assessWeatherImpact (getPointsNearRoute eqGeoKernelR [s2start, s2end] [])).2 = _
  have hrpi : getPointsNearRoute eqGeoKernelR [s2start, s2end] [] = [] := rfl
  rw [hrpi]
  have hpop : assessPopulationImpact (α := ℝ) [] = 0 := by
    unfold assessPopulationImpact
    rw [show (([] : List (GeoPoint ℝ)).filter fun p => p.type = "Population").foldl
      (fun sum point => sum + point.population.getD 0 * (1 / 10)) 0 = 0 from rfl]
    exact jsRound_zero
  rw [hpop]
  have hnoise : assessNoiseImpact (0 : ℝ) = 0 := by
    unfold assessNoiseImpact
    rw [show (0 : ℝ) / 1000 = 0 by norm_num, round1_zero]
    norm_num
  rw [hnoise]
  rfl

set_option maxHeartbeats 2000000 in
/-- Numeric bounds on the modelled great-circle distance between the S2
endpoints: it lies between 3050 m and 3180 m (the true haversine value is
about 3166 m). -/
lemma s2_dist_bounds :
    3050 ≤ distEqR s2start s2end ∧ distEqR s2start s2end ≤ 3180 := by
  have hraw : distEqR s2start s2end =
      6371000 * Real.sqrt (((-0.0226 : ℝ) * (Real.pi / 180)) ^ 2 +
        (Real.cos ((51.5187 : ℝ) * (Real.pi / 180)) * ((-0.0278 : ℝ) * (Real.pi / 180))) ^ 2) := by
    unfold distEqR s2start s2end
    norm_num
  rw [hraw]
  have hy1 : (0.017453288 : ℝ) ≤ Real.pi / 180 := by
    nlinarith [Real.pi_gt_d6]
  have hy2 : Real.pi / 180 ≤ (0.017453295 : ℝ) := by
    nlinarith [Real.pi_lt_d6]
  set y := Real.pi / 180 with hy
  have hy0 : 0 < y := by nlinarith
  have hX1 : (0.899170 : ℝ) ≤ 51.5187 * y := by nlinarith
  have hX2 : (51.5187 : ℝ) * y ≤ 0.899172 := by nlinarith
  have habs : |(51.5187 : ℝ) * y| ≤ 1 := by
    rw [abs_of_pos (by nlinarith)]
    nlinarith
  have hcb := Real.cos_bound habs
  rw [abs_of_pos (show (0 : ℝ) < 51.5187 * y by nlinarith)] at hcb
  obtain ⟨hc1, hc2⟩ := abs_le.mp hcb
  set c := Real.cos ((51.5187 : ℝ) * y) with hc
  have hX2sq : ((51.5187 : ℝ) * y) ^ 2 ≤ 0.80851 := by nlinarith
  have hX1sq : (0.808506 : ℝ) ≤ ((51.5187 : ℝ) * y) ^ 2 := by nlinarith
  have hX4 : ((51.5187 : ℝ) * y) ^ 4 ≤ 0.6537 := by nlinarith
  have hclo : (0.5616 : ℝ) ≤ c := by nlinarith
  have hchi : c ≤ (0.6298 : ℝ) := by nlinarith
  have hcsq1 : (0.3153 : ℝ) ≤ c ^ 2 := by nlinarith
  have hcsq2 : c ^ 2 ≤ (0.39665 : ℝ) := by nlinarith
  have hysq1 : (3.04617e-4 : ℝ) ≤ y ^ 2 := by nlinarith
  have hysq2 : y ^ 2 ≤ (3.046180e-4 : ℝ) := by nlinarith
  have hprod1 : (0.3153 : ℝ) * 3.04617e-4 ≤ c ^ 2 * y ^ 2 := by nlinarith
  have hprod2 : c ^ 2 * y ^ 2 ≤ (0.39665 : ℝ) * 3.046180e-4 := by nlinarith
  set S := ((-0.0226 : ℝ) * y) ^ 2 + (c * ((-0.0278 : ℝ) * y)) ^ 2 with hS
  have hS0 : 0 ≤ S := by positivity
  have hSlo : ((3050 : ℝ) / 6371000) ^ 2 ≤ S := by
    rw [hS]
    nlinarith
  have hShi : S ≤ ((3180 : ℝ) / 6371000) ^ 2 := by
    rw [hS]
    nlinarith
  constructor
  · have hsq : (3050 : ℝ) / 6371000 ≤ Real.sqrt S :=
      (Real.le_sqrt (by norm_num) hS0).mpr hSlo
    nlinarith
  · have hsq : Real.sqrt S ≤ (3180 : ℝ) / 6371000 :=
      Real.sqrt_le_iff.mpr ⟨by norm_num, hShi⟩
    nlinarith

/-- The S2 route distance is the rounded scaled distance. -/
lemma s2_routeDistance_eq :
    getRouteDistance eqGeoKernelR [s2start, s2end] =
      round1 (distEqR s2start s2end / 500) := by
  unfold getRouteDistance
  rw [show (segmentsOf [s2start, s2end]).foldl
      (fun acc seg => acc + eqGeoKernelR.dist seg.1 seg.2) 0 =
      0 + distEqR s2start s2end from rfl, zero_add]

/-- Bounds on the S2 route distance: it rounds into [6.1, 6.4]. -/
lemma s2_routeDistance_bounds :
    (6.1 : ℝ) ≤ getRouteDistance eqGeoKernelR [s2start, s2end] ∧
    getRouteDistance eqGeoKernelR [s2start, s2end] ≤ (6.4 : ℝ) := by
  rw [s2_routeDistance_eq]
  obtain ⟨h1, h2⟩ := s2_dist_bounds
  unfold round1
  set d := distEqR s2start s2end with hd
  have hf1 : (61 : ℤ) ≤ ⌊d / 500 * 10 + 1 / 2⌋ := by
    rw [Int.le_floor]
    push_cast
    nlinarith
  have hf2 : ⌊d / 500 * 10 + 1 / 2⌋ < 65 := by
    rw [Int.floor_lt]
    push_cast
    nlinarith
  constructor
  · have : ((61 : ℤ) : ℝ) ≤ (⌊d / 500 * 10 + 1 / 2⌋ : ℝ) := by
      exact_mod_cast hf1
    nlinarith
  · have : ((⌊d / 500 * 10 + 1 / 2⌋ : ℤ) : ℝ) ≤ ((64 : ℤ) : ℝ) := by
      exact_mod_cast Int.lt_add_one_iff.mp hf2
    nlinarith

/-- C5 (amended): with an empty spatial store, assess for the S2 endpoints
returns populationImpact 0, noiseImpactScore 0.0, route `[start, end]`, no
weather risks, and a routeDistance between 6.1 and 6.4 (not between 1.0 and
2.5): the distance between the endpoints is about 3.17 km and the
`meters / 500` convention yields about 6.3. -/
theorem c5_empty_store_assess :
    assessRouteHandler eqGeoKernelR (some 51.5074) (some (-0.1278))
      (some 51.53) (some (-0.1)) [] =
    AssessResult.ok [s2start, s2end]
      (getRouteDistance eqGeoKernelR [s2start, s2end]) 0 (some 0) none none ∧
    (6.1 : ℝ) ≤ getRouteDistance eqGeoKernelR [s2start, s2end] ∧
    getRouteDistance eqGeoKernelR [s2start, s2end] ≤ (6.4 : ℝ) :=
  ⟨s2_assess_eval, s2_routeDistance_bounds.1, s2_routeDistance_bounds.2⟩

/-- C5 (counterexample): the routeDistance returned for the S2 scenario
exceeds 2.5, refuting the claimed range [1.0, 2.5]. -/
theorem c5_routeDistance_exceeds_claimed :
    (2.5 : ℝ) < (assessRouteHandler eqGeoKernelR (some 51.5074) (some (-0.1278))
      (some 51.53) (some (-0.1)) []).routeDistanceOf := by
  rw [s2_assess_eval]
  show (2.5 : ℝ) < getRouteDistance eqGeoKernelR [s2start, s2end]
  linarith [s2_routeDistance_bounds.1]

end Claims

end AirGo
